import Mathlib

/-!
Shallow embedding of the note-store logic of `src/notes_app.py`.

The filesystem is modelled as an association list from entry names to
nodes; a node is either a file (holding either decodable text or
undecodable bytes) or a subdirectory (holding its own files, one level
deep, which is all the application ever creates).  The "scope" directory
of the Python code (`notes_dir()`: the notes root or the current folder)
is the `Dir` value the operations receive.

Character-level string functions (`str.lower`, `str.strip`, `str.title`,
`re` character classes) are embedded over their ASCII ranges; Python's
Unicode-aware classes extend them to non-ASCII letters, which no claim's
test vector uses.

Python's `Path.read_text` / `Path.write_text` open files in text mode:
on reading, universal-newline translation maps `"\r\n"` and `"\r"` to
`"\n"`; on writing (POSIX) the text is stored as given.  `univNewlines`
embeds the read-side translation.
-/

/-- Characters matched by `\s` in `re` and stripped by `str.strip`
(ASCII range): space, tab, newline, carriage return, vertical tab,
form feed. -/
def isSpaceChar (c : Char) : Bool :=
  c == ' ' || c == '\t' || c == '\n' || c == '\r' || c == '\x0b' || c == '\x0c'

/-- Characters matched by `\w` in `re` (ASCII range): alphanumerics and
the underscore. -/
def isWordChar (c : Char) : Bool :=
  c.isAlphanum || c == '_'

/-- Characters kept by `re.sub(r"[^\w\s-]", "", slug)` (line 25): word
characters, whitespace, and the hyphen. -/
def keepChar (c : Char) : Bool :=
  isWordChar c || isSpaceChar c || c == '-'

/-- `str.strip()`: remove leading and trailing whitespace (line 24). -/
def pyStrip (l : List Char) : List Char :=
  ((l.dropWhile isSpaceChar).reverse.dropWhile isSpaceChar).reverse

/-- Replace every maximal run of characters satisfying `p` by the single
character `r`, as `re.sub(p+, r, s)` does (lines 26 and 27).  The flag
records whether the previous character was part of a run. -/
def collapseRuns (p : Char → Bool) (r : Char) : List Char → Bool → List Char
  | [], _ => []
  | c :: cs, prev =>
    if p c then
      (if prev then collapseRuns p r cs true else r :: collapseRuns p r cs true)
    else c :: collapseRuns p r cs false

/-- The slug stem built by `slugify` (lines 24-28): strip, lower-case,
drop characters outside word/whitespace/hyphen, collapse whitespace runs
to single underscores, collapse underscore runs, truncate to 80
characters, and fall back to `"untitled"` when empty. -/
def slugStem (l : List Char) : List Char :=
  let s3 := ((pyStrip l).map Char.toLower).filter keepChar
  let s4 := collapseRuns isSpaceChar '_' s3 false
  let s5 := collapseRuns (fun c => c == '_') '_' s4 false
  let s6 := s5.take 80
  if s6.isEmpty then "untitled".data else s6

/-- `slugify(title)` (lines 23-29): the slug stem with the fixed
`".txt"` extension appended (line 29). -/
def slugify (title : String) : String :=
  String.mk (slugStem title.data ++ ".txt".data)

/-- Index of the last `'.'` in a name, `str.rfind('.')` (used by
`PurePath.stem`). -/
def lastDotIdx (l : List Char) : Option Nat :=
  (List.range l.length).foldl (fun acc i => if l.getD i ' ' = '.' then some i else acc) none

/-- `PurePath.stem`: the name without its final suffix.  The suffix is
`name[i:]` for `i = name.rfind('.')` only when `0 < i < len(name) - 1`;
otherwise the stem is the whole name. -/
def stemChars (l : List Char) : List Char :=
  match lastDotIdx l with
  | some i => if 0 < i ∧ i < l.length - 1 then l.take i else l
  | none => l

/-- One step of `str.title()`: an alphabetic character is upper-cased
after a non-alphabetic character and lower-cased otherwise; the flag
records whether the previous character was alphabetic (cased). -/
def pyTitleGo : Bool → List Char → List Char
  | _, [] => []
  | prev, c :: cs =>
    if c.isAlpha then
      (if prev then c.toLower else c.toUpper) :: pyTitleGo true cs
    else c :: pyTitleGo false cs

/-- `str.title()` (ASCII range). -/
def pyTitle (l : List Char) : List Char :=
  pyTitleGo false l

/-- The display title of a note file, `p.stem.replace("_", " ").title()`
(line 38): take the stem, replace underscores by spaces, title-case. -/
def displayTitle (name : String) : String :=
  String.mk (pyTitle ((stemChars name.data).map (fun c => if c = '_' then ' ' else c)))

/-- `str.lower()` (ASCII range), as used on titles at line 168. -/
def lowerStr (s : String) : String :=
  String.mk (s.data.map Char.toLower)

/-- Contents of a file on disk: either bytes that decode as UTF-8 text,
or undecodable bytes. -/
inductive Raw where
  | text (s : String)
  | binary
deriving DecidableEq, Repr

/-- A directory entry: a file, or a subdirectory with its own files
(the application never nests folders further). -/
inductive Node where
  | file (content : Raw)
  | dir (files : List (String × Raw))
deriving DecidableEq, Repr

/-- A directory: an association list from entry names to nodes, in
directory (iteration) order.  This is the scope directory the Python
code obtains from `notes_dir()`. -/
abbrev Dir := List (String × Node)

/-- Find the entry of the given name, the model of `Path` access and of
`Path.exists()` (via `Option.isSome`). -/
def lookupFile : Dir → String → Option Node
  | [], _ => none
  | e :: es, name => if e.1 = name then some e.2 else lookupFile es name

/-- `f.is_dir()` (line 33). -/
def is_dir : Node → Bool
  | Node.dir _ => true
  | Node.file _ => false

/-- Replace the contents at `name`, or append a new entry when absent:
the effect of creating or fully overwriting a file. -/
def setEntry : Dir → String → Node → Dir
  | [], name, node => [(name, node)]
  | e :: es, name, node =>
    if e.1 = name then (name, node) :: es else e :: setEntry es name node

/-- Universal-newline translation performed by text-mode reads:
`"\r\n"` and a lone `"\r"` both become `"\n"`. -/
def univNewlines : List Char → List Char
  | [] => []
  | c :: cs =>
    if c = '\r' then
      match cs with
      | '\n' :: cs2 => '\n' :: univNewlines cs2
      | [] => ['\n']
      | d :: ds => '\n' :: univNewlines (d :: ds)
    else c :: univNewlines cs

/-- `read_notes(path)` (lines 42-46): `path.read_text(encoding="utf-8")`
with every exception (missing entry, directory at the path, undecodable
bytes) swallowed into the empty string; a successful text-mode read
returns the decoded text with universal-newline translation. -/
def read_notes (d : Dir) (name : String) : String :=
  match lookupFile d name with
  | some (Node.file (Raw.text s)) => String.mk (univNewlines s.data)
  | _ => ""

/-- `write_note(path, text)` (lines 48-49): `path.write_text` creates or
fully overwrites the file; writing onto a directory raises (modelled as
`none`).  On POSIX the written text is stored as given. -/
def write_note (d : Dir) (name : String) (text : String) : Option Dir :=
  match lookupFile d name with
  | some (Node.dir _) => none
  | _ => some (setEntry d name (Node.file (Raw.text text)))

/-- `glob("*.txt")` name test (line 37): the entry name ends in
`".txt"` (fnmatch, case-sensitive on POSIX); `glob` matches files and
directories alike and does not recurse. -/
def globTxt (name : String) : Bool :=
  List.isSuffixOf ".txt".data name.data

/-- Ordering of listed entries, `sorted(out, key=lambda t: t[0])`
(line 40): compare by display title, code-point lexicographic. -/
abbrev titleLE (a b : String × String) : Prop := a.1 ≤ b.1

instance : DecidableRel titleLE := fun a b => inferInstanceAs (Decidable (a.1 ≤ b.1))

instance : IsTotal (String × String) titleLE := ⟨fun a b => le_total a.1 b.1⟩

instance : IsTrans (String × String) titleLE := ⟨fun _ _ _ h1 h2 => le_trans h1 h2⟩

/-- `list_notes()` (lines 35-40): every direct entry of the scope
directory matching `*.txt` (in directory order), paired with its display
title, sorted by title (Python's `sorted` is a stable sort). -/
def list_notes (d : Dir) : List (String × String) :=
  List.insertionSort titleLE
    ((d.filter (fun e => globTxt e.1)).map (fun e => (displayTitle e.1, e.1)))

/-- Outcome of `rename_selected` (lines 205-220). -/
inductive RenameOutcome where
  | noop
  | alreadyExists
  | renamed
deriving DecidableEq, Repr

/-- `p.rename(new_path)`: the entry named `src` is moved to `dst`. -/
def moveEntry (d : Dir) (src dst : String) : Dir :=
  d.map (fun e => if e.1 = src then (dst, e.2) else e)

/-- `rename_selected` (lines 205-220), given the resolved source path
`src` and the dialog answer `new_title`: return silently when the title
is empty or unchanged (line 210); compute `slugify(new_title)` and fail
with an already-exists error when that path exists (lines 212-215);
otherwise move the file. -/
def rename_selected (d : Dir) (src : String) (new_title : String) : Dir × RenameOutcome :=
  let old_title := displayTitle src
  if new_title = "" ∨ new_title = old_title then (d, RenameOutcome.noop)
  else
    let newName := slugify new_title
    if (lookupFile d newName).isSome then (d, RenameOutcome.alreadyExists)
    else (moveEntry d src newName, RenameOutcome.renamed)

/-- Outcome of resolving a title to a path. -/
inductive Resolved where
  | found (p : String)
  | notFound
deriving DecidableEq, Repr

/-- The title-resolution logic of `selected_path` (lines 163-172), given
the scope directory and the selected display title: recompute the slug;
when that path does not exist, scan `list_notes()` for the first entry
whose title matches case-insensitively; otherwise report not found.
(The listbox bookkeeping and the folder branch of `selected_path` are
presentation glue and are outside the model.) -/
def selected_path (d : Dir) (title : String) : Resolved :=
  let filename := slugify title
  if (lookupFile d filename).isSome then Resolved.found filename
  else
    match (list_notes d).find? (fun e => lowerStr e.1 == lowerStr title) with
    | some e => Resolved.found e.2
    | none => Resolved.notFound

/-- `list_folders()` (lines 31-33): iterate `app_dir()/"notes"` and keep
the directories.  `Path.iterdir` raises `FileNotFoundError` when the
root is absent (modelled as `Except.error ()`); nothing creates the root
here. -/
def list_folders (root : Option Dir) : Except Unit (List String) :=
  match root with
  | none => Except.error ()
  | some d => Except.ok ((d.filter (fun e => is_dir e.2)).map (fun e => e.1))

/-- `notes_dir()` (lines 14-21) with no current folder: `mkdir` the root
when it is absent (`exist_ok=True`) and return it.  The result is the
scope directory together with the root as it exists afterwards. -/
def notes_dir (root : Option Dir) : Dir × Option Dir :=
  (root.getD [], some (root.getD []))

/-! Helper lemmas. -/

/-- Every character produced by `collapseRuns p r` is either the
replacement `r` or an input character on which `p` is false. -/
theorem mem_collapseRuns {p : Char → Bool} {r : Char} :
    ∀ (l : List Char) (prev : Bool) (c : Char),
      c ∈ collapseRuns p r l prev → c = r ∨ (c ∈ l ∧ p c = false) := by
  intro l
  induction l with
  | nil => intro prev c h; simp [collapseRuns] at h
  | cons d ds ih =>
    intro prev c h
    by_cases hd : p d = true
    · rw [collapseRuns, if_pos hd] at h
      cases prev with
      | true =>
        rcases ih true c h with h1 | ⟨h2, h3⟩
        · exact Or.inl h1
        · exact Or.inr ⟨List.mem_cons_of_mem _ h2, h3⟩
      | false =>
        rcases List.mem_cons.mp h with h1 | h1
        · exact Or.inl h1
        · rcases ih true c h1 with h2 | ⟨h2, h3⟩
          · exact Or.inl h2
          · exact Or.inr ⟨List.mem_cons_of_mem _ h2, h3⟩
    · rw [collapseRuns, if_neg hd] at h
      rcases List.mem_cons.mp h with h1 | h1
      · subst h1
        exact Or.inr ⟨List.mem_cons_self _ _, Bool.eq_false_iff.mpr hd⟩
      · rcases ih false c h1 with h2 | ⟨h2, h3⟩
        · exact Or.inl h2
        · exact Or.inr ⟨List.mem_cons_of_mem _ h2, h3⟩

/-- Universal-newline translation is the identity on text without
carriage returns. -/
theorem univNewlines_of_not_cr : ∀ (l : List Char), '\r' ∉ l → univNewlines l = l
  | [], _ => rfl
  | c :: cs, h => by
    have hc : ¬(c = '\r') := fun e => h (e ▸ List.mem_cons_self c cs)
    have ih := univNewlines_of_not_cr cs (fun m => h (List.mem_cons_of_mem _ m))
    rw [univNewlines.eq_def]
    simp only [if_neg hc, ih]

/-- Looking up a name just set finds the node that was set. -/
theorem lookupFile_setEntry (d : Dir) (name : String) (node : Node) :
    lookupFile (setEntry d name node) name = some node := by
  induction d with
  | nil => simp [setEntry, lookupFile]
  | cons e es ih =>
    by_cases h : e.1 = name
    · simp [setEntry, lookupFile, h]
    · simp [setEntry, lookupFile, h, ih]

/-- The slug stem never exceeds 80 characters. -/
theorem slugStem_length_le (l : List Char) : (slugStem l).length ≤ 80 := by
  simp only [slugStem]
  split
  · decide
  · exact le_trans (List.length_take_le _ _) (by norm_num)

/-- The slug stem is never empty. -/
theorem slugStem_ne_nil (l : List Char) : slugStem l ≠ [] := by
  simp only [slugStem]
  split
  · decide
  · next h => exact fun e => h (by simp [e])

/-- Every character of the slug stem is a word character or a hyphen. -/
theorem mem_slugStem {l : List Char} {c : Char} (h : c ∈ slugStem l) :
    isWordChar c = true ∨ c = '-' := by
  simp only [slugStem] at h
  split at h
  · have huntitled : ∀ x ∈ ("untitled".data), isWordChar x = true := by decide
    exact Or.inl (huntitled c h)
  · have h5 := List.take_subset _ _ h
    rcases mem_collapseRuns _ _ _ h5 with h1 | ⟨h4, _⟩
    · exact Or.inl (by rw [h1]; decide)
    · rcases mem_collapseRuns _ _ _ h4 with h2 | ⟨h3, hns⟩
      · exact Or.inl (by rw [h2]; decide)
      · have hk := (List.mem_filter.mp h3).2
        simp [keepChar, hns] at hk
        rcases hk with hk | hk
        · exact Or.inl hk
        · exact Or.inr hk

/-! Claim theorems. -/

/-- C1: the slug transform matches the spec's test vectors:
`slugify("")`, `slugify("   ")` and `slugify("!!!")` each return
`"untitled.txt"`; `slugify("My Note!!")` returns `"my_note.txt"`;
`slugify("a   b")` returns `"a_b.txt"`. -/
theorem slugify_vectors :
    slugify "" = "untitled.txt"
    ∧ slugify "   " = "untitled.txt"
    ∧ slugify "!!!" = "untitled.txt"
    ∧ slugify "My Note!!" = "my_note.txt"
    ∧ slugify "a   b" = "a_b.txt" :=
  ⟨rfl, rfl, rfl, rfl, rfl⟩

/-- C2: for every non-empty title containing at least one word
character, `slugify` returns a non-empty filename of at most 84
characters: a non-empty stem of at most 80 characters plus the
4-character `".txt"` extension. -/
theorem slugify_length_bound (t : String) (h1 : t ≠ "")
    (h2 : ∃ c ∈ t.data, isWordChar c = true) :
    slugify t ≠ "" ∧ (slugify t).length ≤ 84
    ∧ ∃ st : List Char, slugify t = String.mk (st ++ ".txt".data)
        ∧ 1 ≤ st.length ∧ st.length ≤ 80 := by
  refine ⟨?_, ?_, slugStem t.data, rfl, ?_, slugStem_length_le t.data⟩
  · intro he
    have hlen : (slugStem t.data ++ ".txt".data).length = (0 : Nat) :=
      congrArg String.length he
    simp [List.length_append] at hlen
  · show (slugStem t.data ++ ".txt".data).length ≤ 84
    have h80 := slugStem_length_le t.data
    simp only [List.length_append, List.length_cons, List.length_nil]
    omega
  · exact Nat.one_le_iff_ne_zero.mpr
      (fun h0 => slugStem_ne_nil t.data (List.length_eq_zero.mp h0))

/-- C2 witness: the bound holds at the concrete title `"a"`. -/
theorem slugify_length_bound_w :
    slugify "a" ≠ "" ∧ (slugify "a").length ≤ 84
    ∧ ∃ st : List Char, slugify "a" = String.mk (st ++ ".txt".data)
        ∧ 1 ≤ st.length ∧ st.length ≤ 80 :=
  slugify_length_bound "a" (by decide) ⟨'a', by decide, by decide⟩

/-- C3 counterexample: the write-then-read round-trip is not exact for
every UTF-8 string.  Writing `"a\rb"` stores it as given, but the
text-mode read translates the carriage return, returning `"a\nb"`. -/
theorem write_read_roundtrip_cex :
    write_note [] "n.txt" "a\rb" = some [("n.txt", Node.file (Raw.text "a\rb"))]
    ∧ read_notes [("n.txt", Node.file (Raw.text "a\rb"))] "n.txt" = "a\nb"
    ∧ "a\nb" ≠ "a\rb" :=
  ⟨rfl, rfl, by decide⟩

/-- C3 (amended): for every string without a carriage return, reading a
note after writing it returns exactly the written string. -/
theorem write_read_roundtrip (d : Dir) (name x : String) (hx : '\r' ∉ x.data)
    (d' : Dir) (hw : write_note d name x = some d') :
    read_notes d' name = x := by
  unfold write_note at hw
  split at hw
  · exact absurd hw (by simp)
  · injection hw with hw
    subst hw
    unfold read_notes
    rw [lookupFile_setEntry]
    show String.mk (univNewlines x.data) = x
    rw [univNewlines_of_not_cr _ hx]

/-- C3 witness: round-trip at the spec's scenario content. -/
theorem write_read_roundtrip_w :
    read_notes [("groceries.txt", Node.file (Raw.text "milk, eggs"))] "groceries.txt"
      = "milk, eggs" :=
  write_read_roundtrip [] "groceries.txt" "milk, eggs" (by decide) _ rfl

/-- C4: renaming a note to a new title whose slug-derived filename is
already occupied in the scope fails with the already-exists error and
leaves the directory — hence the source file and the conflicting file —
unchanged. -/
theorem rename_conflict (d : Dir) (src new_title : String)
    (h1 : new_title ≠ "") (h2 : new_title ≠ displayTitle src)
    (h3 : (lookupFile d (slugify new_title)).isSome = true) :
    rename_selected d src new_title = (d, RenameOutcome.alreadyExists)
    ∧ lookupFile (rename_selected d src new_title).1 src = lookupFile d src
    ∧ lookupFile (rename_selected d src new_title).1 (slugify new_title)
        = lookupFile d (slugify new_title) := by
  have hmain : rename_selected d src new_title = (d, RenameOutcome.alreadyExists) := by
    unfold rename_selected
    rw [if_neg (by push_neg; exact ⟨h1, h2⟩), if_pos h3]
  exact ⟨hmain, by rw [hmain], by rw [hmain]⟩

/-- C4 witness: renaming `"a.txt"` to title `"B"` while `"b.txt"`
exists is rejected and changes nothing. -/
theorem rename_conflict_w :
    rename_selected [("a.txt", Node.file (Raw.text "A")), ("b.txt", Node.file (Raw.text "B"))]
        "a.txt" "B"
      = ([("a.txt", Node.file (Raw.text "A")), ("b.txt", Node.file (Raw.text "B"))],
         RenameOutcome.alreadyExists) :=
  (rename_conflict [("a.txt", Node.file (Raw.text "A")), ("b.txt", Node.file (Raw.text "B"))]
    "a.txt" "B" (by decide) (by decide) (by decide)).1

/-- C5: resolving a title recomputes its slug in the scope; when that
path exists it is returned; otherwise the scope's note listing is
scanned linearly for the first entry whose display title matches
case-insensitively, and when no entry matches the result is not-found. -/
theorem selected_path_spec (d : Dir) (title : String) :
    ((lookupFile d (slugify title)).isSome = true →
      selected_path d title = Resolved.found (slugify title))
    ∧ ((lookupFile d (slugify title)).isSome = false →
        (∀ e, (list_notes d).find? (fun x => lowerStr x.1 == lowerStr title) = some e →
          selected_path d title = Resolved.found e.2)
        ∧ ((list_notes d).find? (fun x => lowerStr x.1 == lowerStr title) = none →
          selected_path d title = Resolved.notFound)) := by
  refine ⟨fun h => ?_, fun h => ⟨fun e he => ?_, fun he => ?_⟩⟩
  · unfold selected_path
    rw [if_pos h]
  · unfold selected_path
    rw [if_neg (by simp [h]), he]
  · unfold selected_path
    rw [if_neg (by simp [h]), he]

/-- C5 witness: the fallback scan resolves title `"A  B"` to the file
`"a__b.txt"`, whose recomputed slug `"a_b.txt"` does not exist. -/
theorem selected_path_spec_w :
    selected_path [("a__b.txt", Node.file (Raw.text "hi"))] "A  B"
      = Resolved.found "a__b.txt" :=
  ((selected_path_spec [("a__b.txt", Node.file (Raw.text "hi"))] "A  B").2
    (by decide)).1 ("A  B", "a__b.txt") (by decide)

/-- C6 counterexample: a successful read does not return the file's
full text decoded as UTF-8 — a file storing `"x\r\ny"` is read back as
`"x\ny"`, because the text-mode read translates line endings. -/
theorem read_notes_full_text_cex :
    lookupFile [("m.txt", Node.file (Raw.text "x\r\ny"))] "m.txt"
      = some (Node.file (Raw.text "x\r\ny"))
    ∧ read_notes [("m.txt", Node.file (Raw.text "x\r\ny"))] "m.txt" = "x\ny"
    ∧ "x\ny" ≠ "x\r\ny" :=
  ⟨rfl, rfl, by decide⟩

/-- C6 (amended): `read_notes` is a total function of the directory
state — it never raises.  It returns the empty string when the entry is
missing, is a directory, or holds undecodable bytes, and on success the
file's text decoded as UTF-8 with text-mode universal-newline
translation (CR and CRLF read back as LF). -/
theorem read_notes_spec (d : Dir) (name : String) :
    (lookupFile d name = none → read_notes d name = "")
    ∧ (∀ fs, lookupFile d name = some (Node.dir fs) → read_notes d name = "")
    ∧ (lookupFile d name = some (Node.file Raw.binary) → read_notes d name = "")
    ∧ (∀ s, lookupFile d name = some (Node.file (Raw.text s)) →
        read_notes d name = String.mk (univNewlines s.data)) := by
  refine ⟨fun h => ?_, fun fs h => ?_, fun h => ?_, fun s h => ?_⟩ <;>
    · unfold read_notes
      rw [h]

/-- C6 witness: reading an existing text note returns its content. -/
theorem read_notes_spec_w :
    read_notes [("n.txt", Node.file (Raw.text "hi"))] "n.txt" = "hi" :=
  ((read_notes_spec [("n.txt", Node.file (Raw.text "hi"))] "n.txt").2.2.2 "hi" rfl).trans rfl

/-- C7 counterexample: a subdirectory whose name ends in `".txt"` does
appear in the listing, because `glob("*.txt")` matches directories and
`list_notes` never filters on `is_file`. -/
theorem list_notes_subdir_cex :
    list_notes [("folder.txt", Node.dir [("inner.txt", Raw.text "hi")])]
      = [("Folder", "folder.txt")]
    ∧ is_dir (Node.dir [("inner.txt", Raw.text "hi")]) = true :=
  ⟨rfl, rfl⟩

/-- C7 (amended): `list_notes` never recurses — every listed entry
names a direct child of the scope directory whose name matches
`"*.txt"`, so files inside subdirectories are never listed and
subdirectories not named `"*.txt"` never appear; a subdirectory whose
own name ends in `".txt"` does appear as an entry. -/
theorem list_notes_direct_child (d : Dir) (t p : String)
    (h : (t, p) ∈ list_notes d) :
    ∃ node, (p, node) ∈ d ∧ globTxt p = true ∧ t = displayTitle p := by
  have hp : (t, p) ∈ (d.filter (fun e => globTxt e.1)).map
      (fun e => (displayTitle e.1, e.1)) :=
    (List.perm_insertionSort titleLE _).mem_iff.mp h
  rcases List.mem_map.mp hp with ⟨e, he, heq⟩
  rcases List.mem_filter.mp he with ⟨hed, hetxt⟩
  have h1 : displayTitle e.1 = t := congrArg Prod.fst heq
  have h2 : e.1 = p := congrArg Prod.snd heq
  subst h2
  exact ⟨e.2, hed, hetxt, h1.symm⟩

/-- C7 witness: the listing of a directory holding one note file points
back at that direct child. -/
theorem list_notes_direct_child_w :
    ∃ node, (("plan.txt" : String), node) ∈
        ([("plan.txt", Node.file (Raw.text ""))] : Dir)
      ∧ globTxt "plan.txt" = true ∧ "Plan" = displayTitle "plan.txt" :=
  list_notes_direct_child [("plan.txt", Node.file (Raw.text ""))] "Plan" "plan.txt"
    (by decide)

/-- C8 counterexample: `list_notes` does not enumerate only note files —
a subdirectory named `"evil.txt"` is enumerated as an entry. -/
theorem list_notes_dir_entry_cex :
    lookupFile [("evil.txt", Node.dir [])] "evil.txt" = some (Node.dir [])
    ∧ list_notes [("evil.txt", Node.dir [])] = [("Evil", "evil.txt")] :=
  ⟨rfl, rfl⟩

/-- C8 (amended): `list_notes` returns exactly the direct entries of the
scope directory whose names end in `".txt"` — files, and any
subdirectory so named — each paired with the display title derived from
its name (stem, underscores to spaces, title-case), sorted ascending by
display title under the case-sensitive lexical string order. -/
theorem list_notes_sorted (d : Dir) :
    List.Sorted titleLE (list_notes d)
    ∧ (list_notes d).Perm
        ((d.filter (fun e => globTxt e.1)).map (fun e => (displayTitle e.1, e.1))) :=
  ⟨List.sorted_insertionSort titleLE _, List.perm_insertionSort titleLE _⟩

/-- C9: with the notes root absent, `list_folders` fails with the
missing-directory error instead of creating the root, while `notes_dir`
does create the root, so listing notes through it succeeds. -/
theorem list_folders_missing_root :
    list_folders none = Except.error ()
    ∧ (notes_dir none).2 = some []
    ∧ list_notes (notes_dir none).1 = [] :=
  ⟨rfl, rfl, rfl⟩

/-- C10: for every title, `slugify` returns a stem of word characters
and hyphens followed by the literal `".txt"`; in particular the stem
contains no path separator (`'/'` or `'\\'`) and no `'.'`, so joining
the filename to the scope directory stays directly inside it. -/
theorem slugify_filename_safe (t : String) :
    ∃ st : List Char, slugify t = String.mk (st ++ ".txt".data)
      ∧ (∀ c ∈ st, isWordChar c = true ∨ c = '-')
      ∧ '/' ∉ st ∧ '\\' ∉ st ∧ '.' ∉ st := by
  refine ⟨slugStem t.data, rfl, fun c hc => mem_slugStem hc, ?_, ?_, ?_⟩ <;>
    · intro hm
      rcases mem_slugStem hm with h | h
      · exact absurd h (by decide)
      · exact absurd h (by decide)
